import Mathlib

set_option maxRecDepth 8192

attribute [local semireducible] Rat.add Rat.mul Rat.sub Rat.inv

namespace Treegro

/-! Shallow embedding of the treegro population core: the two cohort pipes of
src/state_pipe.rs (duplicated verbatim in src/fsm.rs), the plant life-cycle
machine of src/fsm.rs, the parameter projection of src/param.rs and the
discretized normal-distribution initializer of src/distrib_util.rs.

Modelling conventions, used consistently below:
* `u32` values are `ℕ`.  Checked (debug-build) `u32` subtraction is `u32sub`,
  whose `none` models the arithmetic-underflow trap; additions that cannot
  overflow in any statement proved here are left unbounded, and the one
  addition that an adversarial input could overflow (`pop + gain` in the
  approximate pipe's `step`) is guarded explicitly.
* `f32` values are modelled by exact rationals `ℚ`.  The Rust cast
  `expr as u32` (truncate towards zero, saturate into `[0, u32::MAX]`,
  non-finite values to 0 or `u32::MAX`) is `rustCastU32`; `f32::round`
  (round half away from zero) is `rustRound`; `f32::EPSILON` is `2⁻²³`.
* The Rust cast `x as f32` on a `u32` is exact only up to 2^24; above that
  the 24-bit mantissa forces rounding to nearest, ties to even.  This cast
  is modelled faithfully by `f32ofNat` at every cast site of the approximate
  pipe's `loss`/`loss_percent`/`retain_age_avg`/`step`, whose claims range
  over populations beyond 2^24.  The remaining `u32 as f32` sites (the cull
  operations, the parameter products of the machine) are modelled by the
  exact coercion: every theorem below evaluates them only on values at most
  2^24, where the cast is the identity.
* The single place where a non-finite `f32` arises (the division
  `dead_plants as f32 / mature_plants.pop() as f32` with a zero denominator)
  is modelled by `ratDivOpt : ℚ → ℚ → Option ℚ`, `none` standing for the
  non-finite result; a `none` fraction multiplied into a count and cast to
  `u32` gives 0, exactly as NaN (and the `1.0 - ∞ = -∞` case) does in Rust.
* `f32::sqrt` is modelled by `ratSqrt`, which is exact whenever numerator and
  denominator are perfect squares — which covers every concrete evaluation
  performed in this file.
* Out-of-bounds indexing (`age_list[0]` on an empty deque) and failed
  assertions are modelled by `Option`, `none` standing for the abort.
-/

/-- 2^32, the size of the u32 value space. -/
def U32_MOD : ℕ := 4294967296

/-- Checked u32 subtraction as performed by a debug build: `none` models the
underflow trap (a release build would instead wrap modulo 2^32). -/
def u32sub (a b : ℕ) : Option ℕ := if b ≤ a then some (a - b) else none

/-- Saturating conversion of an integer into u32 range, the final stage of a
Rust `as u32` cast. -/
def castIntU32 (z : ℤ) : ℕ := if z < 0 then 0 else min z.toNat (U32_MOD - 1)

/-- Rust `expr as u32` on a finite f32 value: truncate towards zero, then
saturate into `[0, u32::MAX]`.  (For q < 0 truncation and flooring agree once
saturated to 0.) -/
def rustCastU32 (q : ℚ) : ℕ := castIntU32 ⌊q⌋

/-- Rust `f32::round`: round half away from zero. -/
def rustRound (q : ℚ) : ℤ := if q < 0 then -(⌊-q + 1/2⌋) else ⌊q + 1/2⌋

/-- Division whose result is a finite f32 value only when the denominator is
nonzero; `none` models the non-finite result (NaN for 0/0, ±∞ otherwise). -/
def ratDivOpt (a b : ℚ) : Option ℚ := if b = 0 then none else some (a / b)

/-- f32::EPSILON = 2⁻²³. -/
def EPSILON : ℚ := 1 / 8388608

/-- Fuel-bounded integer square root (largest k ≤ fuel with k*k ≤ n). -/
def natSqrtAux : ℕ → ℕ → ℕ
  | 0, _ => 0
  | f + 1, n => if (f + 1) * (f + 1) ≤ n then f + 1 else natSqrtAux f n

/-- Integer square root, exact on perfect squares. -/
def natSqrt (n : ℕ) : ℕ := natSqrtAux n n

/-- Rational model of `f32::sqrt`: exact whenever numerator and denominator
are perfect squares, which holds at every point where a proof in this file
evaluates it. -/
def ratSqrt (q : ℚ) : ℚ := (natSqrt q.num.toNat : ℚ) / (natSqrt q.den : ℚ)

/-- Round n to the nearest multiple of 2^s, ties to the even multiple. -/
def roundNearestEven (n s : ℕ) : ℕ :=
  let q := n / 2 ^ s
  let r := n % 2 ^ s
  if 2 * r < 2 ^ s then q * 2 ^ s
  else if 2 ^ s < 2 * r then (q + 1) * 2 ^ s
  else (if q % 2 = 0 then q else q + 1) * 2 ^ s

/-- Fuel-bounded floor base-2 logarithm, total for fuel ≥ n. -/
def natLog2Aux : ℕ → ℕ → ℕ
  | 0, _ => 0
  | f + 1, n => if 2 ≤ n then natLog2Aux f (n / 2) + 1 else 0

/-- Floor base-2 logarithm. -/
def natLog2 (n : ℕ) : ℕ := natLog2Aux n n

/-- Rust `x as f32` on a u32 value: exact up to 2^24; above that the 24-bit
mantissa holds only multiples of 2^(⌊log2 x⌋ − 23), and the conversion
rounds to the nearest one, ties to even. -/
def f32ofNat (n : ℕ) : ℚ :=
  if n < 2 ^ 24 then (n : ℚ)
  else (roundNearestEven n (natLog2 n - 23) : ℚ)

theorem f32ofNat_zero : f32ofNat 0 = 0 := by decide

/-- The conversion is the identity on every integer f32 represents exactly
in this range, i.e. up to 2^24. -/
theorem f32ofNat_exact {n : ℕ} (h : n ≤ 2 ^ 24) : f32ofNat n = (n : ℚ) := by
  rcases Nat.lt_or_ge n (2 ^ 24) with h1 | h1
  · rw [f32ofNat, if_pos h1]
  · have h24 : (2 : ℕ) ^ 24 = 16777216 := by norm_num
    have h2 : n = 2 ^ 24 := by rw [h24] at h h1 ⊢; omega
    subst h2
    decide

/-- src/state_pipe.rs `GroundTruthStatePipe` (the exact cohort pipe): ordered
per-age population counts, index 0 = oldest cohort. -/
structure GroundTruthStatePipe where
  age_list : List ℕ

deriving instance DecidableEq for GroundTruthStatePipe

/-- `loss()`: reads `age_list[0]`; `none` models the index panic on an empty
deque. -/
def GroundTruthStatePipe.loss (s : GroundTruthStatePipe) : Option ℕ :=
  s.age_list.head?

/-- `pop()`: sum of all cohort counts. -/
def GroundTruthStatePipe.pop (s : GroundTruthStatePipe) : ℕ :=
  s.age_list.sum

/-- `step(gain)`: `pop_front` (a no-op on an empty deque) then
`push_back(gain)`. -/
def GroundTruthStatePipe.step (s : GroundTruthStatePipe) (gain : ℕ) : GroundTruthStatePipe :=
  ⟨s.age_list.tail ++ [gain]⟩

/-- `set_period(period)`: shrinking pops the excess oldest buckets and adds
their sum onto the new oldest slot (`age_list[0] += pop_sum`, which panics —
`none` — when period = 0 empties the deque); growing pushes zero slots at the
front. -/
def GroundTruthStatePipe.set_period (s : GroundTruthStatePipe) (period : ℕ) :
    Option GroundTruthStatePipe :=
  if period < s.age_list.length then
    match s.age_list.drop (s.age_list.length - period) with
    | [] => none
    | x :: rest => some ⟨(x + (s.age_list.take (s.age_list.length - period)).sum) :: rest⟩
  else if s.age_list.length < period then
    some ⟨List.replicate (period - s.age_list.length) 0 ++ s.age_list⟩
  else some s

/-- One bucket of `cull_pop`: `(count as f32 * (1.0 - remove_percent)) as u32`.
A `none` percentage is the non-finite mortality fraction: the product is then
NaN or -∞ and the cast yields 0. -/
def cullEntry (remove_percent : Option ℚ) (x : ℕ) : ℕ :=
  match remove_percent with
  | none => 0
  | some r => rustCastU32 ((x : ℚ) * (1 - r))

/-- `cull_pop(remove_percent)`: scales every bucket independently. -/
def GroundTruthStatePipe.cull_pop (s : GroundTruthStatePipe) (remove_percent : Option ℚ) :
    GroundTruthStatePipe :=
  ⟨s.age_list.map (cullEntry remove_percent)⟩

/-- src/state_pipe.rs `GaussianStatePipe` (the approximate cohort pipe):
period, total population, mean age and age variance. -/
structure GaussianStatePipe where
  period : ℕ
  pop : ℕ
  age_avg : ℚ
  age_var : ℚ

deriving instance DecidableEq for GaussianStatePipe

/-- `GaussianStatePipe::default()`. -/
def gaussDefault : GaussianStatePipe := ⟨0, 0, 0, 0⟩

/-- `approx_gauss(mean, std, val)`: quintic smoothstep approximation of the
normal CDF (the `&self` receiver of the Rust method is unused). -/
def approx_gauss (mean std val : ℚ) : ℚ :=
  let x := (val - mean) / (51 / 10 * std) + 1 / 2
  x * x * x * (x * (x * 6 - 15) + 10)

/-- `loss_percent()`: collapses to a step function when the variance is below
f32::EPSILON, otherwise one minus the smoothstep CDF at the period. -/
def GaussianStatePipe.loss_percent (s : GaussianStatePipe) : ℚ :=
  if s.age_var < EPSILON then
    if f32ofNat s.period ≤ s.age_avg then 1 else 0
  else
    1 - approx_gauss s.age_avg (ratSqrt s.age_var) (f32ofNat s.period)

/-- `loss()`: `(pop as f32 * loss_percent()).round() as u32`. -/
def GaussianStatePipe.loss (s : GaussianStatePipe) : ℕ :=
  castIntU32 (rustRound (f32ofNat s.pop * s.loss_percent))

/-- `retain_age_avg()`: mean age of the surviving sub-population.  Only ever
invoked from `step` under its `loss() ≤ pop` guard, where the u32 subtraction
`pop - loss()` cannot trap. -/
def GaussianStatePipe.retain_age_avg (s : GaussianStatePipe) : ℚ :=
  if s.pop - s.loss = 0 then 0
  else (f32ofNat s.pop * s.age_avg - f32ofNat (s.loss * s.period)) /
    f32ofNat (s.pop - s.loss)

/-- `step(gain)`: moment-matching update.  `none` models the u32 traps of a
debug build: overflow of `pop + gain`, or underflow of `pop - loss()` (the
subtraction appears in `next_age_avg`, `avg_sft_var_delta` and
`retain_age_avg` whenever the reported loss exceeds the population). -/
def GaussianStatePipe.step (s : GaussianStatePipe) (gain : ℕ) : Option GaussianStatePipe :=
  let L := s.loss
  if U32_MOD ≤ s.pop + gain then none
  else if s.pop < L then none
  else
    let next_pop := s.pop + gain - L
    let next_age_avg : ℚ :=
      if next_pop = 0 then 0
      else f32ofNat (s.pop - L) * (s.age_avg + 1) / f32ofNat next_pop
    let loss_var_delta : ℚ := f32ofNat L * (f32ofNat s.period - s.age_avg) ^ 2
    let avg_sft_var_delta : ℚ :=
      f32ofNat (s.pop - L) * (next_age_avg - 1 - s.age_avg) *
        (next_age_avg - 1 + s.age_avg - 2 * s.retain_age_avg)
    let gain_var_delta : ℚ := f32ofNat gain * next_age_avg ^ 2
    let next_age_var : ℚ :=
      if next_pop = 0 then 0
      else s.age_var + (gain_var_delta + avg_sft_var_delta - loss_var_delta) / f32ofNat next_pop
    some ⟨s.period, next_pop, next_age_avg, next_age_var⟩

/-- `set_period(period)`: stores `period - 1` in u32 arithmetic; `none`
models the debug-build underflow trap at period = 0 (a release build would
store the wrapped value `u32::MAX`). -/
def GaussianStatePipe.set_period (s : GaussianStatePipe) (period : ℕ) :
    Option GaussianStatePipe :=
  (u32sub period 1).map fun p => { s with period := p }

/-- `cull_pop(remove_percent)`: scales the population; a surviving population
keeps its mean and rescales the variance by the inverse survival ratio, a
population culled to zero resets the mean. -/
def GaussianStatePipe.cull_pop (s : GaussianStatePipe) (remove_percent : Option ℚ) :
    GaussianStatePipe :=
  let new_pop := cullEntry remove_percent s.pop
  if new_pop = 0 then { s with pop := 0, age_avg := 0 }
  else { s with pop := new_pop, age_var := s.age_var * (s.pop : ℚ) / (new_pop : ℚ) }

/-- States of the exact pipe reachable through its public interface. -/
inductive GtReachable : GroundTruthStatePipe → Prop where
  | init : GtReachable ⟨[]⟩
  | step (g : ℕ) {s : GroundTruthStatePipe} :
      GtReachable s → GtReachable (s.step g)
  | set_period (p : ℕ) {s s' : GroundTruthStatePipe} :
      GtReachable s → s.set_period p = some s' → GtReachable s'
  | cull (q : Option ℚ) {s : GroundTruthStatePipe} :
      GtReachable s → GtReachable (s.cull_pop q)

/-- States of the approximate pipe reachable through its public interface. -/
inductive GaussReachable : GaussianStatePipe → Prop where
  | init : GaussReachable gaussDefault
  | step (g : ℕ) {s s' : GaussianStatePipe} :
      GaussReachable s → s.step g = some s' → GaussReachable s'
  | set_period (p : ℕ) {s s' : GaussianStatePipe} :
      GaussReachable s → s.set_period p = some s' → GaussReachable s'
  | cull (q : Option ℚ) {s : GaussianStatePipe} :
      GaussReachable s → GaussReachable (s.cull_pop q)

/-- In the exact pipe, the oldest cohort never exceeds the total: whenever
`loss()` is defined it is bounded by `pop()`. -/
theorem gt_loss_le_pop (s : GroundTruthStatePipe) :
    ∀ n, s.loss = some n → n ≤ s.pop := by
  obtain ⟨l⟩ := s
  cases l with
  | nil => intro n h; simp [GroundTruthStatePipe.loss] at h
  | cons a t =>
    intro n h
    simp only [GroundTruthStatePipe.loss, List.head?_cons, Option.some.injEq] at h
    subst h
    simp only [GroundTruthStatePipe.pop, List.sum_cons]
    exact Nat.le_add_right a t.sum

/-- A reachable state of the approximate pipe whose reported loss exceeds its
population: mean age 5/2 with variance 1/4 above the threshold, after
`set_period(1)` pushed the period below the mean.  There the smoothstep
polynomial is evaluated far outside [0, 1], `loss_percent()` is ≈ 3.06, and
`loss()` reports 61 on a population of 20. -/
def gaussBad : GaussianStatePipe := ⟨0, 20, 5 / 2, 1 / 4⟩

/-- The state `gaussBad` is reached by: `set_period(12)`, `step(10)`,
`step(10)`, `step(0)`, `step(0)`, `set_period(1)`. -/
theorem gaussBad_reachable : GaussReachable gaussBad := by
  have h0 : GaussReachable gaussDefault := GaussReachable.init
  have h1 : GaussReachable ⟨11, 0, 0, 0⟩ := GaussReachable.set_period 12 h0 (by decide)
  have h2 : GaussReachable ⟨11, 10, 0, 0⟩ := GaussReachable.step 10 h1 (by decide)
  have h3 : GaussReachable ⟨11, 20, 1 / 2, 1 / 4⟩ := GaussReachable.step 10 h2 (by decide)
  have h4 : GaussReachable ⟨11, 20, 3 / 2, 1 / 4⟩ := GaussReachable.step 0 h3 (by decide)
  have h5 : GaussReachable ⟨11, 20, 5 / 2, 1 / 4⟩ := GaussReachable.step 0 h4 (by decide)
  exact GaussReachable.set_period 1 h5 (by decide)

/-- Claim C2 (corrected), counterexample: a reachable state of the
approximate pipe reports `loss()` = 61 on `pop()` = 20 — the code never
clamps the reported loss to the population, so "loss() ≤ pop() for every
reachable state of both backends" is false. -/
theorem c2_gauss_loss_exceeds_pop :
    GaussReachable gaussBad ∧ gaussBad.pop < gaussBad.loss :=
  ⟨gaussBad_reachable, by decide⟩

/-- Claim C2 (corrected, amended): `pop() ≥ 0` always; for every reachable
state of the exact pipe `loss() ≤ pop()` holds by construction; but the
approximate pipe does not clamp its reported loss to the current population:
it has reachable states whose reported `loss()` strictly exceeds `pop()`. -/
theorem c2_amended :
    (∀ s : GroundTruthStatePipe, GtReachable s →
      0 ≤ s.pop ∧ ∀ n, s.loss = some n → n ≤ s.pop) ∧
    (∃ s : GaussianStatePipe, GaussReachable s ∧ s.pop < s.loss) := by
  constructor
  · intro s _
    exact ⟨Nat.zero_le _, gt_loss_le_pop s⟩
  · exact ⟨gaussBad, gaussBad_reachable, by decide⟩

/-- Claim C2 witness: the reachable exact-pipe state [3, 4] reports loss 3,
bounded by its population 7. -/
theorem c2_witness : 3 ≤ GroundTruthStatePipe.pop ⟨[3, 4]⟩ := by
  have r0 : GtReachable ⟨[]⟩ := GtReachable.init
  have r1 : GtReachable ⟨[0, 0]⟩ := GtReachable.set_period 2 r0 (by decide)
  have r2 : GtReachable ⟨[0, 3]⟩ := GtReachable.step 3 r1
  have r3 : GtReachable ⟨[3, 4]⟩ := GtReachable.step 4 r2
  exact (c2_amended.1 ⟨[3, 4]⟩ r3).2 3 rfl

/-- Run the exact pipe through a sequence of `step(gain)` calls with no
intervening `set_period` or `cull_pop`, reading `loss()` before each step and
accumulating the reported losses; `none` models a panic of some `loss()`
read. -/
def gtRun : GroundTruthStatePipe → List ℕ → Option (GroundTruthStatePipe × ℕ)
  | s, [] => some (s, 0)
  | s, g :: gs =>
    s.loss.bind fun L =>
      (gtRun (s.step g) gs).bind fun r => some (r.1, L + r.2)

/-- Claim C4 (confirmed): for the exact pipe, after any sequence of
`step(gain_i)` calls with no intervening `set_period` or `cull_pop`, the
final `pop()` plus the total reported losses equals the initial `pop()` plus
the total gains — i.e. `pop()` equals its initial value plus gains minus the
losses reported by `loss()` before each step, exactly. -/
theorem c4_exact_conservation :
    ∀ (gains : List ℕ) (s s' : GroundTruthStatePipe) (losses : ℕ),
      gtRun s gains = some (s', losses) →
      s'.pop + losses = s.pop + gains.sum := by
  intro gains
  induction gains with
  | nil =>
    intro s s' losses h
    simp only [gtRun, Option.some.injEq, Prod.mk.injEq] at h
    obtain ⟨h1, h2⟩ := h
    subst h1; subst h2; simp
  | cons g gs ih =>
    intro s s' losses h
    obtain ⟨l⟩ := s
    cases l with
    | nil => simp [gtRun, GroundTruthStatePipe.loss] at h
    | cons a t =>
      simp only [gtRun, GroundTruthStatePipe.loss, List.head?_cons, Option.some_bind,
        Option.bind_eq_some, Option.some.injEq, Prod.mk.injEq] at h
      obtain ⟨⟨t', rest⟩, hrun, hs', hlosses⟩ := h
      have ihr := ih _ t' rest hrun
      dsimp only at hs' hlosses
      subst hs'; subst hlosses
      simp only [GroundTruthStatePipe.step, GroundTruthStatePipe.pop, List.tail_cons,
        List.sum_append, List.sum_cons, List.sum_nil, List.sum_singleton] at ihr ⊢
      omega

/-- Claim C4 witness: starting from [1, 2] with gains [5, 7], the reported
losses are 1 and 2 and the final population is 12 = 3 + 12 − 3. -/
theorem c4_witness :
    GroundTruthStatePipe.pop ⟨[5, 7]⟩ + 3 =
      GroundTruthStatePipe.pop ⟨[1, 2]⟩ + ([5, 7] : List ℕ).sum :=
  c4_exact_conservation [5, 7] ⟨[1, 2]⟩ ⟨[5, 7]⟩ 3 (by decide)

/-- Claim C7 (corrected), counterexample: `set_period(0)` on the nonempty
pipe [5] pops every bucket and then executes `self.age_list[0] += pop_sum` on
the emptied deque — an out-of-bounds panic (`none`).  The claim's "for every
state of the ExactCohortPipe and every new period" therefore fails: at this
input there is no resulting state whose `pop()` could be preserved. -/
theorem c7_set_period_zero_panics :
    GroundTruthStatePipe.set_period ⟨[5]⟩ 0 = none := by decide

/-- Claim C7 (corrected, amended): for every state and every new period —
except a period of 0 on a nonempty pipe, where `set_period` panics —
`set_period` succeeds and leaves `pop()` unchanged: growing pads zero-count
slots at the front, and shrinking merges the excess oldest buckets into the
remaining oldest slot rather than deleting them. -/
theorem c7_amended :
    ∀ (s : GroundTruthStatePipe) (p : ℕ), 1 ≤ p ∨ s.age_list = [] →
      ∃ s', s.set_period p = some s' ∧ s'.pop = s.pop ∧
        (s.age_list.length ≤ p →
          s'.age_list = List.replicate (p - s.age_list.length) 0 ++ s.age_list) ∧
        (p < s.age_list.length →
          ∃ x rest, s.age_list.drop (s.age_list.length - p) = x :: rest ∧
            s'.age_list = (x + (s.age_list.take (s.age_list.length - p)).sum) :: rest) := by
  intro s p hp
  obtain ⟨l⟩ := s
  dsimp only at hp ⊢
  by_cases h1 : p < l.length
  · have hp1 : 1 ≤ p := by
      rcases hp with h | h
      · exact h
      · rw [h] at h1; simp at h1
    have hd : l.drop (l.length - p) ≠ [] := by
      intro hnil
      have := List.drop_eq_nil_iff.mp hnil
      omega
    obtain ⟨x, rest, hx⟩ := List.exists_cons_of_ne_nil hd
    refine ⟨⟨(x + (l.take (l.length - p)).sum) :: rest⟩, ?_, ?_, ?_, ?_⟩
    · simp only [GroundTruthStatePipe.set_period, if_pos h1, hx]
    · have hsum : (l.take (l.length - p)).sum + (l.drop (l.length - p)).sum = l.sum :=
        List.sum_take_add_sum_drop l _
      rw [hx] at hsum
      simp only [GroundTruthStatePipe.pop, List.sum_cons] at hsum ⊢
      omega
    · intro hle; omega
    · intro _; exact ⟨x, rest, hx, rfl⟩
  · by_cases h2 : l.length < p
    · refine ⟨⟨List.replicate (p - l.length) 0 ++ l⟩, ?_, ?_, fun _ => rfl, fun h => by omega⟩
      · simp only [GroundTruthStatePipe.set_period, if_neg h1, if_pos h2]
      · simp [GroundTruthStatePipe.pop, List.sum_append]
    · have hpl : p = l.length := by omega
      refine ⟨⟨l⟩, ?_, rfl, fun _ => by rw [hpl]; simp, fun h => by omega⟩
      simp only [GroundTruthStatePipe.set_period, if_neg h1, if_neg h2]

/-- Claim C7 witness: `set_period(2)` on [1, 2, 3] merges the excess oldest
buckets into [3, 3], preserving the population 6. -/
theorem c7_witness :
    GroundTruthStatePipe.pop ⟨[3, 3]⟩ = GroundTruthStatePipe.pop ⟨[1, 2, 3]⟩ := by
  obtain ⟨s', h1, h2, -, -⟩ := c7_amended ⟨[1, 2, 3]⟩ 2 (Or.inl (by decide))
  have hv : GroundTruthStatePipe.set_period ⟨[1, 2, 3]⟩ 2 = some ⟨[3, 3]⟩ := by decide
  obtain rfl : (⟨[3, 3]⟩ : GroundTruthStatePipe) = s' := Option.some.inj (hv.symm.trans h1)
  exact h2

/-- j-fold `step(0)` iteration of the approximate pipe (`none` once any step
hits a u32 trap). -/
def gaussIter : ℕ → GaussianStatePipe → Option GaussianStatePipe
  | 0, s => some s
  | n + 1, s => (gaussIter n s).bind fun t => t.step 0

/-- State of the exact pipe after `set_period(K)` on an empty pipe,
`step(P)`, and j further `step(0)` calls. -/
def gtPulse (K P j : ℕ) : GroundTruthStatePipe :=
  (fun t => GroundTruthStatePipe.step t 0)^[j] (GroundTruthStatePipe.step ⟨List.replicate K 0⟩ P)

/-- State of the approximate pipe after `set_period(K)` on a default pipe
(stored period K − 1), `step(P)`, and j further `step(0)` calls. -/
def gaussPulse (K P j : ℕ) : Option GaussianStatePipe :=
  (GaussianStatePipe.step ⟨K - 1, 0, 0, 0⟩ P).bind (gaussIter j)

theorem gtPulse_succ (K P j : ℕ) :
    gtPulse K P (j + 1) = (gtPulse K P j).step 0 := by
  simp only [gtPulse, Function.iterate_succ_apply']

/-- Closed form of the exact-pipe pulse: the cohort P sits j slots from the
tail, zeros elsewhere. -/
theorem gtPulse_eq (K P : ℕ) :
    ∀ j, j ≤ K - 1 →
      gtPulse K P j = ⟨List.replicate (K - 1 - j) 0 ++ P :: List.replicate j 0⟩ := by
  intro j
  induction j with
  | zero =>
    intro _
    show GroundTruthStatePipe.step ⟨List.replicate K 0⟩ P = _
    cases K with
    | zero => rfl
    | succ k =>
      simp [GroundTruthStatePipe.step, List.replicate_succ]
  | succ j ih =>
    intro hj
    have hj' : j ≤ K - 1 := by omega
    obtain ⟨m, hm⟩ : ∃ m, K - 1 - j = m + 1 := ⟨K - 2 - j, by omega⟩
    have hm2 : K - 1 - (j + 1) = m := by omega
    rw [gtPulse_succ, ih hj', hm, hm2]
    simp [GroundTruthStatePipe.step, List.replicate_succ, List.cons_append,
      List.tail_cons, List.append_assoc, ← List.replicate_succ']

theorem gauss_lp_zero_loss (s : GaussianStatePipe) (h : s.loss_percent = 0) :
    s.loss = 0 := by
  simp only [GaussianStatePipe.loss, h, mul_zero]
  decide

theorem gauss_pop_zero_loss (s : GaussianStatePipe) (h : s.pop = 0) : s.loss = 0 := by
  simp only [GaussianStatePipe.loss, h, f32ofNat_zero, zero_mul]
  decide

theorem gauss_lp_young (C P : ℕ) (a : ℚ) (hC : C ≤ 2 ^ 24) (h : a < (C : ℚ)) :
    GaussianStatePipe.loss_percent ⟨C, P, a, 0⟩ = 0 := by
  simp only [GaussianStatePipe.loss_percent, f32ofNat_exact hC]
  rw [if_pos (by norm_num [EPSILON]), if_neg (not_le.mpr h)]

theorem gauss_lp_old (C P : ℕ) (a : ℚ) (hC : C ≤ 2 ^ 24) (h : (C : ℚ) ≤ a) :
    GaussianStatePipe.loss_percent ⟨C, P, a, 0⟩ = 1 := by
  simp only [GaussianStatePipe.loss_percent, f32ofNat_exact hC]
  rw [if_pos (by norm_num [EPSILON]), if_pos h]

theorem rustRound_natCast (n : ℕ) : rustRound (n : ℚ) = n := by
  rw [rustRound, if_neg (not_lt.mpr (by positivity))]
  rw [Int.floor_eq_iff]
  constructor
  · push_cast; linarith
  · push_cast; linarith

theorem castIntU32_natCast (n : ℕ) (h : n < U32_MOD) : castIntU32 (n : ℤ) = n := by
  rw [castIntU32, if_neg (by omega)]
  omega

/-- A freshly admitted pulse: `step(P)` on an idle pipe of stored period C
admits P at mean age 0 with zero variance. -/
theorem gauss_step_initial (C P : ℕ) (hP : P < U32_MOD) :
    GaussianStatePipe.step ⟨C, 0, 0, 0⟩ P = some ⟨C, P, 0, 0⟩ := by
  have hL : GaussianStatePipe.loss ⟨C, 0, 0, 0⟩ = 0 := gauss_pop_zero_loss _ rfl
  simp only [GaussianStatePipe.step, hL]
  rw [if_neg (by omega), if_neg (by omega)]
  by_cases hP0 : P = 0
  · subst hP0; norm_num
  · have hnp : 0 + P - 0 = P := by omega
    simp only [hnp, Nat.sub_zero, if_neg hP0]
    norm_num [f32ofNat_zero]

/-- An aging step: a zero-variance cohort of mean age a < period retains its
population and ages by exactly one tick. -/
theorem gauss_step_age (C P : ℕ) (a : ℚ) (hP : 0 < P) (hP24 : P ≤ 2 ^ 24)
    (hC : C ≤ 2 ^ 24) (ha : a < (C : ℚ)) :
    GaussianStatePipe.step ⟨C, P, a, 0⟩ 0 = some ⟨C, P, a + 1, 0⟩ := by
  have hL : GaussianStatePipe.loss ⟨C, P, a, 0⟩ = 0 :=
    gauss_lp_zero_loss _ (gauss_lp_young C P a hC ha)
  have hPQ : (P : ℚ) ≠ 0 := Nat.cast_ne_zero.mpr hP.ne'
  have h24 : (2 : ℕ) ^ 24 = 16777216 := by norm_num
  have hP2 : P < U32_MOD := by
    have h := hP24; rw [h24] at h; simp only [U32_MOD]; omega
  simp only [GaussianStatePipe.step, hL]
  rw [if_neg (by omega), if_neg (by omega)]
  have hnp : P + 0 - 0 = P := by omega
  simp only [hnp, Nat.sub_zero, if_neg hP.ne', f32ofNat_exact hP24]
  have havg : (P : ℚ) * (a + 1) / (P : ℚ) = a + 1 := mul_div_cancel_left₀ _ hPQ
  rw [havg]
  norm_num [f32ofNat_zero]

/-- The expiring step: once the mean age has reached the stored period, the
whole population is reported as loss and removed; the moments reset. -/
theorem gauss_step_expire (C P : ℕ) (hP24 : P ≤ 2 ^ 24) (hC : C ≤ 2 ^ 24) :
    GaussianStatePipe.step ⟨C, P, (C : ℚ), 0⟩ 0 = some ⟨C, 0, 0, 0⟩ := by
  have h24 : (2 : ℕ) ^ 24 = 16777216 := by norm_num
  have hP2 : P < U32_MOD := by
    have h := hP24; rw [h24] at h; simp only [U32_MOD]; omega
  have hL : GaussianStatePipe.loss ⟨C, P, (C : ℚ), 0⟩ = P := by
    simp only [GaussianStatePipe.loss, gauss_lp_old C P _ hC le_rfl, mul_one,
      f32ofNat_exact hP24]
    rw [rustRound_natCast, castIntU32_natCast P hP2]
  simp only [GaussianStatePipe.step, hL]
  rw [if_neg (by omega), if_neg (by omega)]
  have hnp : P + 0 - P = 0 := by omega
  simp only [hnp]
  norm_num

theorem gaussIter_zero_pop (C : ℕ) : ∀ j, gaussIter j ⟨C, 0, 0, 0⟩ = some ⟨C, 0, 0, 0⟩ := by
  intro j
  induction j with
  | zero => rfl
  | succ j ih =>
    simp only [gaussIter, ih, Option.some_bind]
    exact gauss_step_initial C 0 (by norm_num [U32_MOD])

theorem gaussIter_age (C P : ℕ) (hP : 0 < P) (hP24 : P ≤ 2 ^ 24) (hC : C ≤ 2 ^ 24) :
    ∀ j i, i + j ≤ C →
      gaussIter j ⟨C, P, (i : ℚ), 0⟩ = some ⟨C, P, ((i + j : ℕ) : ℚ), 0⟩ := by
  intro j
  induction j with
  | zero => intro i _; simp [gaussIter]
  | succ j ih =>
    intro i hij
    have h1 : i + j ≤ C := by omega
    have h2 : i + j < C := by omega
    simp only [gaussIter, ih i h1, Option.some_bind]
    rw [gauss_step_age C P _ hP hP24 hC (by exact_mod_cast h2)]
    congr 2
    push_cast
    ring

/-- Claim C5 (corrected), counterexample: at K = 1 and P = 2^24 + 1 =
16777217 the approximate pipe breaks the pulse contract.  `pop as f32`
rounds 16777217 to 16777216.0 (ties to even at the 24-bit mantissa), so at
tick K the pipe reports `loss()` = 16777216 ≠ P, and the population
immediately after the K-th step is 1, not 0. -/
theorem c5_gauss_pulse_fails_above_2pow24 :
    GaussianStatePipe.set_period gaussDefault 1 = some ⟨0, 0, 0, 0⟩ ∧
    GaussianStatePipe.step ⟨0, 0, 0, 0⟩ 16777217 = some ⟨0, 16777217, 0, 0⟩ ∧
    GaussianStatePipe.loss ⟨0, 16777217, 0, 0⟩ = 16777216 ∧
    (16777216 : ℕ) ≠ 16777217 ∧
    GaussianStatePipe.step ⟨0, 16777217, 0, 0⟩ 0 = some ⟨0, 1, 1, 0⟩ :=
  ⟨by decide, by decide, by decide, by decide, by decide⟩

/-- Claim C5 (corrected, amended): pulse behaviour of both backends.  After
`set_period(K)` (K ≥ 1) on an empty/default pipe and `step(P)`, repeated
`step(0)` calls give, for the exact pipe and every population P: `loss()` =
0 and `pop()` = P at every tick 1..K−1 (states j = 0..K−2 below), `loss()`
= P exactly at tick K (state j = K−1), and `pop()` = 0 immediately after
the K-th step (state j = K).  The approximate pipe meets the same contract
whenever every quantity arising in the run lies among the integers f32
represents exactly, P·K ≤ 2^24 — in particular P ≤ 2^24, which the
counterexample shows cannot be dropped. -/
theorem c5_amended (K P : ℕ) (hK : 1 ≤ K) :
    (GroundTruthStatePipe.set_period ⟨[]⟩ K = some ⟨List.replicate K 0⟩ ∧
      (∀ j, j + 2 ≤ K → (gtPulse K P j).loss = some 0 ∧ (gtPulse K P j).pop = P) ∧
      (gtPulse K P (K - 1)).loss = some P ∧
      (gtPulse K P K).pop = 0) ∧
    (P * K ≤ 2 ^ 24 →
      GaussianStatePipe.set_period gaussDefault K = some ⟨K - 1, 0, 0, 0⟩ ∧
      (∀ j, j + 2 ≤ K → ∃ s, gaussPulse K P j = some s ∧ s.loss = 0 ∧ s.pop = P) ∧
      (∃ s, gaussPulse K P (K - 1) = some s ∧ s.loss = P ∧ s.pop = P) ∧
      gaussPulse K P K = some ⟨K - 1, 0, 0, 0⟩) := by
  constructor
  · refine ⟨?_, ?_, ?_, ?_⟩
    · have h0 : 0 < K := hK
      simp [GroundTruthStatePipe.set_period, h0]
    · intro j hj
      have hj1 : j ≤ K - 1 := by omega
      rw [gtPulse_eq K P j hj1]
      obtain ⟨m, hm⟩ : ∃ m, K - 1 - j = m + 1 := ⟨K - 2 - j, by omega⟩
      constructor
      · rw [hm]
        simp [GroundTruthStatePipe.loss, List.replicate_succ]
      · simp [GroundTruthStatePipe.pop, List.sum_append, List.sum_replicate]
    · rw [gtPulse_eq K P (K - 1) le_rfl]
      simp [GroundTruthStatePipe.loss, Nat.sub_self]
    · have h1 : gtPulse K P K = (gtPulse K P (K - 1)).step 0 := by
        obtain ⟨k, rfl⟩ : ∃ k, K = k + 1 := ⟨K - 1, by omega⟩
        simp only [Nat.add_sub_cancel, gtPulse_succ]
      rw [h1, gtPulse_eq K P (K - 1) le_rfl]
      simp [GroundTruthStatePipe.step, GroundTruthStatePipe.pop, Nat.sub_self,
        List.sum_append, List.sum_replicate]
  · intro hPK
    have hP24 : P ≤ 2 ^ 24 := le_trans (le_mul_of_one_le_right (Nat.zero_le P) hK) hPK
    have h24 : (2 : ℕ) ^ 24 = 16777216 := by norm_num
    have hP2 : P < U32_MOD := by
      have h := hP24; rw [h24] at h; simp only [U32_MOD]; omega
    refine ⟨?_, ?_, ?_, ?_⟩
    · simp [GaussianStatePipe.set_period, u32sub, hK, gaussDefault]
    · intro j hj
      by_cases hP0 : P = 0
      · subst hP0
        refine ⟨⟨K - 1, 0, 0, 0⟩, ?_, gauss_pop_zero_loss _ rfl, rfl⟩
        simp only [gaussPulse, gauss_step_initial (K - 1) 0 (by norm_num [U32_MOD]),
          Option.some_bind]
        exact gaussIter_zero_pop (K - 1) j
      · have hP1 : 0 < P := Nat.pos_of_ne_zero hP0
        have hK24 : K - 1 ≤ 2 ^ 24 :=
          le_trans (Nat.sub_le K 1)
            (le_trans (le_mul_of_one_le_left (Nat.zero_le K) hP1) hPK)
        refine ⟨⟨K - 1, P, (j : ℚ), 0⟩, ?_, ?_, rfl⟩
        · simp only [gaussPulse, gauss_step_initial (K - 1) P hP2, Option.some_bind]
          have := gaussIter_age (K - 1) P hP1 hP24 hK24 j 0 (by omega)
          simpa using this
        · exact gauss_lp_zero_loss _
            (gauss_lp_young (K - 1) P _ hK24 (by exact_mod_cast by omega))
    · by_cases hP0 : P = 0
      · subst hP0
        refine ⟨⟨K - 1, 0, 0, 0⟩, ?_, gauss_pop_zero_loss _ rfl, rfl⟩
        simp only [gaussPulse, gauss_step_initial (K - 1) 0 (by norm_num [U32_MOD]),
          Option.some_bind]
        exact gaussIter_zero_pop (K - 1) (K - 1)
      · have hP1 : 0 < P := Nat.pos_of_ne_zero hP0
        have hK24 : K - 1 ≤ 2 ^ 24 :=
          le_trans (Nat.sub_le K 1)
            (le_trans (le_mul_of_one_le_left (Nat.zero_le K) hP1) hPK)
        refine ⟨⟨K - 1, P, ((K - 1 : ℕ) : ℚ), 0⟩, ?_, ?_, rfl⟩
        · simp only [gaussPulse, gauss_step_initial (K - 1) P hP2, Option.some_bind]
          have := gaussIter_age (K - 1) P hP1 hP24 hK24 (K - 1) 0 (by omega)
          simpa using this
        · simp only [GaussianStatePipe.loss, gauss_lp_old (K - 1) P _ hK24 le_rfl,
            mul_one, f32ofNat_exact hP24]
          rw [rustRound_natCast, castIntU32_natCast P hP2]
    · obtain ⟨k, hk⟩ : ∃ k, K = k + 1 := ⟨K - 1, by omega⟩
      subst hk
      by_cases hP0 : P = 0
      · subst hP0
        simp only [gaussPulse, Nat.add_sub_cancel,
          gauss_step_initial k 0 (by norm_num [U32_MOD]), Option.some_bind]
        exact gaussIter_zero_pop k (k + 1)
      · have hP1 : 0 < P := Nat.pos_of_ne_zero hP0
        have hk24 : k ≤ 2 ^ 24 :=
          le_trans (Nat.le_succ k)
            (le_trans (le_mul_of_one_le_left (Nat.zero_le (k + 1)) hP1) hPK)
        have h0 := gaussIter_age k P hP1 hP24 hk24 k 0 (by omega)
        norm_num at h0
        simp only [gaussPulse, Nat.add_sub_cancel, gauss_step_initial k P hP2,
          Option.some_bind, gaussIter, h0]
        exact gauss_step_expire k P hP24 hk24

/-- Claim C5 witness: with K = 3 and P = 7 (so P·K ≤ 2^24), loss at tick 3
is exactly 7, the exact pipe is empty after the third step, and the
approximate pipe has returned to the idle state. -/
theorem c5_witness :
    (gtPulse 3 7 2).loss = some 7 ∧ (gtPulse 3 7 3).pop = 0 ∧
    gaussPulse 3 7 3 = some ⟨2, 0, 0, 0⟩ := by
  have h := c5_amended 3 7 (by decide)
  exact ⟨h.1.2.2.1, h.1.2.2.2, (h.2 (by decide)).2.2.2⟩

/-- src/param.rs `PlantFsmParams`: the 14 named control parameters. -/
inductive PlantFsmParams where
  | SeedMaturationPeriod
  | SeedGerminationConditions
  | SeedGerminationPeriod
  | PlantMaturationPeriod
  | FloweringConditions
  | FloweringPeriod
  | FloweringRecoveryPeriod
  | FloweringSuccessRatio
  | DispersionRate
  | DispersionPeriod
  | DispersionRecoveryPeriod
  | MaturePlantLifePeriod
  | MinimumSurvivalConditions
  | SnagDecompositionPeriod

deriving instance DecidableEq for PlantFsmParams

/-- src/param.rs `SpecificParameterVector`: 14 resolved f32 scalars addressed
by parameter name (modelled as a function from the name enum). -/
def SpecificParameterVector : Type := PlantFsmParams → ℚ

/-- src/param.rs `float_param`: returns the raw resolved value. -/
def float_param (v : SpecificParameterVector) (p : PlantFsmParams) : ℚ := v p

/-- src/param.rs `uint_param`: asserts the value is non-negative (`none`
models the failed assertion) and then performs `value.trunc() as u32`. -/
def uint_param (v : SpecificParameterVector) (p : PlantFsmParams) : Option ℕ :=
  if 0 ≤ v p then some (rustCastU32 (v p)) else none

/-- A parameter vector whose every entry is 2^32, an exactly representable
f32 value. -/
def pvBig : SpecificParameterVector := fun _ => (4294967296 : ℚ)

/-- Claim C9 (corrected), counterexample: at the f32-representable value 2^32
the `as u32` cast saturates, so `uint_param` returns u32::MAX = 4294967295
rather than the truncation 4294967296 of the value — "returns the value
truncated to a non-negative integer when the value is ≥ 0" fails there. -/
theorem c9_saturates_at_u32_max :
    uint_param pvBig PlantFsmParams.SeedMaturationPeriod = some 4294967295 ∧
    ⌊(4294967296 : ℚ)⌋.toNat = 4294967296 ∧ (4294967295 : ℕ) ≠ 4294967296 :=
  ⟨by decide, by decide, by decide⟩

/-- Claim C9 (corrected, amended): `uint_param` fails (`none`, a failed
assertion) on every negative value — it never silently clamps a negative
value to 0 — and on a non-negative value returns its truncation, except that
values ≥ 2^32 saturate to u32::MAX = 2^32 − 1. -/
theorem c9_amended :
    ∀ (v : SpecificParameterVector) (p : PlantFsmParams),
      (v p < 0 → uint_param v p = none) ∧
      (0 ≤ v p → v p < (U32_MOD : ℚ) → uint_param v p = some ⌊v p⌋.toNat) ∧
      ((U32_MOD : ℚ) ≤ v p → uint_param v p = some (U32_MOD - 1)) := by
  intro v p
  refine ⟨fun h => by simp [uint_param, not_le.mpr h], fun h0 hlt => ?_, fun hge => ?_⟩
  · have hf0 : 0 ≤ ⌊v p⌋ := Int.floor_nonneg.mpr h0
    have hfl : ⌊v p⌋ < (U32_MOD : ℤ) := by
      rw [Int.floor_lt]; exact_mod_cast hlt
    have hmin : min ⌊v p⌋.toNat (U32_MOD - 1) = ⌊v p⌋.toNat := by
      apply min_eq_left; omega
    simp [uint_param, if_pos h0, rustCastU32, castIntU32, not_lt.mpr hf0, hmin]
  · have h0 : 0 ≤ v p := le_trans (by positivity) hge
    have hf : (U32_MOD : ℤ) ≤ ⌊v p⌋ := by
      rw [Int.le_floor]; exact_mod_cast hge
    have hf0 : ¬ (⌊v p⌋ < 0) := by omega
    have hmin : min ⌊v p⌋.toNat (U32_MOD - 1) = U32_MOD - 1 := by
      apply min_eq_right; omega
    simp [uint_param, if_pos h0, rustCastU32, castIntU32, hf0, hmin]

/-- Claim C9 witness: the value 5/2 is accepted and truncated to 2. -/
theorem c9_witness :
    uint_param (fun _ => (5 / 2 : ℚ)) PlantFsmParams.SeedMaturationPeriod =
      some ⌊(5 / 2 : ℚ)⌋.toNat :=
  (c9_amended (fun _ => (5 / 2 : ℚ)) PlantFsmParams.SeedMaturationPeriod).2.1
    (by decide) (by norm_num [U32_MOD])

/-- Claim C10 (confirmed): the approximate pipe's `set_period` stores
period − 1 through unsigned 32-bit subtraction, so it is total exactly under
the precondition period ≥ 1; `set_period(0)` underflows the subtraction
(`none`, the debug-build trap; a release build would wrap to u32::MAX)
instead of storing a usable period. -/
theorem c10_set_period_stores_pred :
    ∀ (s : GaussianStatePipe) (p : ℕ),
      (1 ≤ p → s.set_period p = some { s with period := p - 1 }) ∧
      s.set_period 0 = none := by
  intro s p
  constructor
  · intro hp
    simp [GaussianStatePipe.set_period, u32sub, hp]
  · simp [GaussianStatePipe.set_period, u32sub]

/-- Claim C10 witness: `set_period(3)` on the default pipe stores period 2. -/
theorem c10_witness :
    GaussianStatePipe.set_period gaussDefault 3 = some ⟨2, 0, 0, 0⟩ :=
  (c10_set_period_stores_pred gaussDefault 3).1 (by decide)

/-- src/distrib_util.rs `NORMAL_CDF_APPROX_CONST` = 1.65451, the logistic
steepness minimizing the maximum deviation from the true normal CDF. -/
def NORMAL_CDF_APPROX_CONST : ℚ := 165451 / 100000

/-- src/distrib_util.rs `normal_cdf`: logistic approximation of the normal
CDF.  The f32 exponential `E.powf` is kept abstract as the argument `rexp`;
the claim settled below holds for every choice of it. -/
def normal_cdf (rexp : ℚ → ℚ) (mean std x : ℚ) : ℚ :=
  1 / (1 + rexp (-NORMAL_CDF_APPROX_CONST / std * (x - mean)))

/-- src/distrib_util.rs `normal_prob`. -/
def normal_prob (rexp : ℚ → ℚ) (mean std min max : ℚ) : ℚ :=
  normal_cdf rexp mean std max - normal_cdf rexp mean std min

/-- The `while` loop of `get_pop_normal_distrib`: starting from 0, decrement
`neg_age` while the bucket left of it still receives an expected count of at
least 0.5; `fuel` bounds the unrolling (`none` = not terminated within
fuel). -/
def findNegAge (rexp : ℚ → ℚ) (pop_size : ℕ) (age_std : ℚ) : ℕ → ℤ → Option ℤ
  | 0, _ => none
  | fuel + 1, neg_age =>
    if normal_prob rexp 0 age_std ((((neg_age - 1 : ℤ) : ℚ) + 1 / 2) / age_std)
        ((((neg_age : ℤ) : ℚ) + 1 / 2) / age_std) * (pop_size : ℚ) ≥ 1 / 2 then
      findNegAge rexp pop_size age_std fuel (neg_age - 1)
    else some neg_age

/-- Rust inclusive range `a..=b` as a list (empty when b < a). -/
def rangeIncl (a b : ℤ) : List ℤ :=
  if a ≤ b then (List.range (b - a + 1).toNat).map fun i => a + Int.ofNat i else []

/-- src/distrib_util.rs `get_pop_normal_distrib`: find the extent of the
discretized distribution, then either a flat run of unit buckets
(`neg_age == 0`), a single full bucket (`neg_age == 1`), or the per-bucket
truncated expected counts over `neg_age..=-neg_age`. -/
def get_pop_normal_distrib (rexp : ℚ → ℚ) (fuel : ℕ) (pop_size : ℕ) (age_std : ℚ) :
    Option (List ℕ) :=
  (findNegAge rexp pop_size age_std fuel 0).map fun neg_age =>
    if neg_age = 0 then
      List.replicate pop_size 1
    else if neg_age = 1 then
      [pop_size]
    else
      (rangeIncl neg_age (-neg_age)).map fun (age : ℤ) =>
        rustCastU32 (normal_prob rexp 0 age_std (((age : ℚ) + 1 / 2) / age_std)
          (((age : ℚ) + 1 + 1 / 2) / age_std) * (pop_size : ℚ))

/-- The search loop only ever decrements: its result is at most its starting
point. -/
theorem findNegAge_le (rexp : ℚ → ℚ) (pop_size : ℕ) (age_std : ℚ) :
    ∀ fuel n r, findNegAge rexp pop_size age_std fuel n = some r → r ≤ n := by
  intro fuel
  induction fuel with
  | zero => intro n r h; simp [findNegAge] at h
  | succ fuel ih =>
    intro n r h
    simp only [findNegAge] at h
    split at h
    · have := ih _ _ h; omega
    · obtain rfl := Option.some.inj h; omega

/-- Claim C8 (code_bug): `get_pop_normal_distrib` can never return a single
bucket (for pop_size ≥ 2, whatever the standard deviation and however the
f32 exponential behaves): the search loop only decrements `neg_age` from 0,
so the branch testing `neg_age == 1` — the one the code's own comment
designates for the collapsed small-deviation distribution `vec![pop_size]` —
is unreachable, and the result has either `pop_size` buckets or at least
three. -/
theorem c8_never_single_bucket :
    ∀ (rexp : ℚ → ℚ) (fuel pop_size : ℕ) (age_std : ℚ) (r : List ℕ),
      get_pop_normal_distrib rexp fuel pop_size age_std = some r →
      2 ≤ pop_size → r.length ≠ 1 := by
  intro rexp fuel pop_size age_std r h hpop
  simp only [get_pop_normal_distrib, Option.map_eq_some'] at h
  obtain ⟨neg_age, hfind, hr⟩ := h
  have hle : neg_age ≤ 0 := findNegAge_le rexp pop_size age_std fuel 0 neg_age hfind
  subst hr
  by_cases h0 : neg_age = 0
  · subst h0
    rw [if_pos rfl, List.length_replicate]
    omega
  · have hneg : neg_age < 0 := by omega
    rw [if_neg h0, if_neg (by omega)]
    rw [List.length_map, rangeIncl, if_pos (show neg_age ≤ -neg_age by omega),
      List.length_map, List.length_range]
    omega

/-- Claim C8 witness: with a constant model of the exponential on population
2 the loop stops at once and the flat two-bucket distribution comes back —
indeed not a single bucket. -/
theorem c8_witness : ([1, 1] : List ℕ).length ≠ 1 :=
  c8_never_single_bucket (fun _ => 1) 5 2 1 [1, 1] (by decide) (by decide)

/-- src/fsm.rs `PlantStateMachine`, instantiated with the exact pipe backend
(the backend the repository's own tests drive the generic machine with):
9 stage pipes plus the two raw u32 counters. -/
structure PlantStateMachine where
  immature_seeds : GroundTruthStatePipe
  mature_seeds : GroundTruthStatePipe
  dormant_seeds : ℕ
  immature_plants : GroundTruthStatePipe
  mature_plants : GroundTruthStatePipe
  ready_to_flower_plants : ℕ
  flowering_plants : GroundTruthStatePipe
  flower_recovering_plants : GroundTruthStatePipe
  dispersing_plants : GroundTruthStatePipe
  disperse_recovering_plants : GroundTruthStatePipe
  snags : GroundTruthStatePipe

deriving instance DecidableEq for PlantStateMachine

/-- `PlantStateMachine::default()`: every pipe empty, both counters 0. -/
def initMachine : PlantStateMachine :=
  ⟨⟨[]⟩, ⟨[]⟩, 0, ⟨[]⟩, ⟨[]⟩, 0, ⟨[]⟩, ⟨[]⟩, ⟨[]⟩, ⟨[]⟩, ⟨[]⟩⟩

/-- One statement of `update_states`: read one period parameter (asserting
non-negativity) and re-period the designated pipe. -/
def setPipePeriod (v : SpecificParameterVector) (p : PlantFsmParams)
    (get : PlantStateMachine → GroundTruthStatePipe)
    (put : PlantStateMachine → GroundTruthStatePipe → PlantStateMachine)
    (m : PlantStateMachine) : Option PlantStateMachine :=
  (uint_param v p).bind fun n => ((get m).set_period n).map (put m)

/-- src/fsm.rs `update_states`: re-derive every pipe's period from the
projected parameters, in source order; `none` models a failed `uint_param`
assertion or a panicking `set_period`. -/
def PlantStateMachine.update_states (m : PlantStateMachine) (v : SpecificParameterVector) :
    Option PlantStateMachine :=
  (setPipePeriod v PlantFsmParams.SeedMaturationPeriod (fun m => m.immature_seeds)
    (fun m s => { m with immature_seeds := s }) m).bind fun m =>
  (setPipePeriod v PlantFsmParams.SeedGerminationPeriod (fun m => m.mature_seeds)
    (fun m s => { m with mature_seeds := s }) m).bind fun m =>
  (setPipePeriod v PlantFsmParams.PlantMaturationPeriod (fun m => m.immature_plants)
    (fun m s => { m with immature_plants := s }) m).bind fun m =>
  (setPipePeriod v PlantFsmParams.MaturePlantLifePeriod (fun m => m.mature_plants)
    (fun m s => { m with mature_plants := s }) m).bind fun m =>
  (setPipePeriod v PlantFsmParams.FloweringPeriod (fun m => m.flowering_plants)
    (fun m s => { m with flowering_plants := s }) m).bind fun m =>
  (setPipePeriod v PlantFsmParams.FloweringRecoveryPeriod (fun m => m.flower_recovering_plants)
    (fun m s => { m with flower_recovering_plants := s }) m).bind fun m =>
  (setPipePeriod v PlantFsmParams.DispersionPeriod (fun m => m.dispersing_plants)
    (fun m s => { m with dispersing_plants := s }) m).bind fun m =>
  (setPipePeriod v PlantFsmParams.DispersionRecoveryPeriod
    (fun m => m.disperse_recovering_plants)
    (fun m s => { m with disperse_recovering_plants := s }) m).bind fun m =>
  setPipePeriod v PlantFsmParams.SnagDecompositionPeriod (fun m => m.snags)
    (fun m s => { m with snags := s }) m

/-- The pre-mutation snapshot read at the top of `step` (src/fsm.rs lines
204–214): the loss of every stage pipe; `none` models a `loss()` panic on an
empty pipe. -/
structure StepSnapshot where
  matured_seeds : ℕ
  germinated_seeds : ℕ
  matured_plants : ℕ
  dead_plants : ℕ
  flowered_plants : ℕ
  dispersed_plants : ℕ
  flower_rec_loss : ℕ
  disperse_rec_loss : ℕ

deriving instance DecidableEq for StepSnapshot

def PlantStateMachine.readSnapshot (m : PlantStateMachine) : Option StepSnapshot :=
  m.immature_seeds.loss.bind fun matured_seeds =>
  m.mature_seeds.loss.bind fun germinated_seeds =>
  m.immature_plants.loss.bind fun matured_plants =>
  m.mature_plants.loss.bind fun dead_plants =>
  m.flowering_plants.loss.bind fun flowered_plants =>
  m.dispersing_plants.loss.bind fun dispersed_plants =>
  m.flower_recovering_plants.loss.bind fun fr =>
  m.disperse_recovering_plants.loss.map fun dr =>
    ⟨matured_seeds, germinated_seeds, matured_plants, dead_plants,
      flowered_plants, dispersed_plants, fr, dr⟩

/-- `total_seeds_dispersed` (src/fsm.rs lines 210–212): the dispersing-plant
population times the dispersal-rate parameter, the f32 product truncated to
u32. -/
def totalSeedsDispersed (m : PlantStateMachine) (v : SpecificParameterVector) : ℕ :=
  rustCastU32 ((m.dispersing_plants.pop : ℚ) * float_param v PlantFsmParams.DispersionRate)

/-- Observations of one tick of the machine: the resulting state, the seeds
admitted into the immature-seed pipe, the cohort dropped by the snag pipe's
step (final removal by decomposition), and the computed mortality fraction
(`none` = the non-finite f32 produced by a zero denominator). -/
structure StepObs where
  machine : PlantStateMachine
  admitted_seeds : ℕ
  snag_removed : ℕ
  mature_die_percent : Option ℚ

deriving instance DecidableEq for StepObs

/-- The mutation phase of `step` (src/fsm.rs lines 216–268), applied to the
post-`update_states` machine and the pre-mutation snapshot, in source order:
the mortality fraction `dead_plants as f32 / mature_plants.pop() as f32` is
computed unconditionally (no zero-denominator special case exists in the
source; `ratDivOpt` returns `none` for the non-finite result, which the
casts then turn into 0 exactly as Rust's NaN/−∞ casts do); then the culls,
the snag and seed admissions, the germination and flowering conditionals and
the flowering split.  `none` models the u32 underflow of
`flowered_plants - flower_success_pop`. -/
def PlantStateMachine.applyStep (m : PlantStateMachine) (v : SpecificParameterVector)
    (sn : StepSnapshot) : Option StepObs :=
  let total_seeds_dispersed := totalSeedsDispersed m v
  let recovered_plants := sn.flower_rec_loss + sn.disperse_rec_loss
  let mature_die_percent := ratDivOpt (sn.dead_plants : ℚ) (m.mature_plants.pop : ℚ)
  let flowering_plants := m.flowering_plants.cull_pop mature_die_percent
  let dispersing_plants := m.dispersing_plants.cull_pop mature_die_percent
  let flower_recovering_plants := m.flower_recovering_plants.cull_pop mature_die_percent
  let disperse_recovering_plants := m.disperse_recovering_plants.cull_pop mature_die_percent
  let ready_to_flower_plants := cullEntry mature_die_percent m.ready_to_flower_plants
  let snag_removed := m.snags.age_list.headD 0
  let snags := m.snags.step sn.dead_plants
  let immature_seeds := m.immature_seeds.step total_seeds_dispersed
  let mature_seeds :=
    if float_param v PlantFsmParams.SeedGerminationConditions < 0 then m.mature_seeds
    else m.mature_seeds.step (sn.matured_seeds + m.dormant_seeds)
  let dormant_seeds :=
    if float_param v PlantFsmParams.SeedGerminationConditions < 0 then
      m.dormant_seeds + sn.matured_seeds
    else 0
  let immature_plants := m.immature_plants.step sn.germinated_seeds
  let mature_plants := m.mature_plants.step sn.matured_plants
  let ready_to_flower_plants := ready_to_flower_plants + sn.matured_plants + recovered_plants
  let flowering_plants2 :=
    if float_param v PlantFsmParams.FloweringConditions < 0 then flowering_plants
    else flowering_plants.step ready_to_flower_plants
  let ready_to_flower_plants2 :=
    if float_param v PlantFsmParams.FloweringConditions < 0 then ready_to_flower_plants
    else 0
  let flower_success_pop :=
    rustCastU32 (float_param v PlantFsmParams.FloweringSuccessRatio * (sn.flowered_plants : ℚ))
  let dispersing_plants2 := dispersing_plants.step flower_success_pop
  (u32sub sn.flowered_plants flower_success_pop).map fun flower_fail_pop =>
    { machine :=
        { immature_seeds := immature_seeds
          mature_seeds := mature_seeds
          dormant_seeds := dormant_seeds
          immature_plants := immature_plants
          mature_plants := mature_plants
          ready_to_flower_plants := ready_to_flower_plants2
          flowering_plants := flowering_plants2
          flower_recovering_plants := flower_recovering_plants.step flower_fail_pop
          dispersing_plants := dispersing_plants2
          disperse_recovering_plants := disperse_recovering_plants.step sn.dispersed_plants
          snags := snags }
      admitted_seeds := total_seeds_dispersed
      snag_removed := snag_removed
      mature_die_percent := mature_die_percent }

/-- src/fsm.rs `PlantStateMachine::step`, with this tick's observations:
`update_states`, snapshot of every loss, then the mutation phase. -/
def PlantStateMachine.stepTrace (m : PlantStateMachine) (v : SpecificParameterVector) :
    Option StepObs :=
  (m.update_states v).bind fun m1 =>
    m1.readSnapshot.bind fun sn => m1.applyStep v sn

/-- src/fsm.rs `PlantStateMachine::step` (the resulting machine). -/
def PlantStateMachine.step (m : PlantStateMachine) (v : SpecificParameterVector) :
    Option PlantStateMachine :=
  (m.stepTrace v).map StepObs.machine

/-- Total population summed across all 9 stage pipes and both counters. -/
def totalPopulation (m : PlantStateMachine) : ℕ :=
  m.immature_seeds.pop + m.mature_seeds.pop + m.dormant_seeds + m.immature_plants.pop +
    m.mature_plants.pop + m.ready_to_flower_plants + m.flowering_plants.pop +
    m.flower_recovering_plants.pop + m.dispersing_plants.pop +
    m.disperse_recovering_plants.pop + m.snags.pop

/-- A run of `step` over a parameter sequence, accumulating the total seeds
admitted and the total individuals removed through snag decomposition. -/
def runTrace :
    PlantStateMachine → List SpecificParameterVector → Option (PlantStateMachine × ℕ × ℕ)
  | m, [] => some (m, 0, 0)
  | m, v :: vs =>
    (m.stepTrace v).bind fun obs =>
      (runTrace obs.machine vs).bind fun r =>
        some (r.1, obs.admitted_seeds + r.2.1, obs.snag_removed + r.2.2)

/-- Every cohort count of the pipe is zero. -/
def PipeZero (s : GroundTruthStatePipe) : Prop := ∀ x ∈ s.age_list, x = 0

/-- Every stage pipe holds only zero cohorts and both counters are zero. -/
def MachineZero (m : PlantStateMachine) : Prop :=
  PipeZero m.immature_seeds ∧ PipeZero m.mature_seeds ∧ m.dormant_seeds = 0 ∧
    PipeZero m.immature_plants ∧ PipeZero m.mature_plants ∧ m.ready_to_flower_plants = 0 ∧
    PipeZero m.flowering_plants ∧ PipeZero m.flower_recovering_plants ∧
    PipeZero m.dispersing_plants ∧ PipeZero m.disperse_recovering_plants ∧ PipeZero m.snags

theorem pipeZero_pop {s : GroundTruthStatePipe} (h : PipeZero s) : s.pop = 0 :=
  List.sum_eq_zero h

theorem pipeZero_loss {s : GroundTruthStatePipe} (h : PipeZero s) :
    ∀ n, s.loss = some n → n = 0 := by
  intro n hn
  obtain ⟨l⟩ := s
  cases l with
  | nil => simp [GroundTruthStatePipe.loss] at hn
  | cons a t =>
    simp only [GroundTruthStatePipe.loss, List.head?_cons, Option.some.injEq] at hn
    subst hn
    exact h a (List.mem_cons_self a t)

theorem pipeZero_headD {s : GroundTruthStatePipe} (h : PipeZero s) :
    s.age_list.headD 0 = 0 := by
  obtain ⟨l⟩ := s
  cases l with
  | nil => rfl
  | cons a t => exact h a (List.mem_cons_self a t)

theorem pipeZero_step0 {s : GroundTruthStatePipe} (h : PipeZero s) :
    PipeZero (s.step 0) := by
  intro x hx
  simp only [GroundTruthStatePipe.step, List.mem_append, List.mem_singleton] at hx
  rcases hx with hx | hx
  · exact h x (List.mem_of_mem_tail hx)
  · exact hx

theorem rustCastU32_zero : rustCastU32 0 = 0 := by decide

theorem cullEntry_zero (q : Option ℚ) : cullEntry q 0 = 0 := by
  cases q with
  | none => rfl
  | some r =>
    simp only [cullEntry, Nat.cast_zero, zero_mul, rustCastU32_zero]

theorem pipeZero_cull {s : GroundTruthStatePipe} (h : PipeZero s) (q : Option ℚ) :
    PipeZero (s.cull_pop q) := by
  intro x hx
  simp only [GroundTruthStatePipe.cull_pop, List.mem_map] at hx
  obtain ⟨y, hy, hxy⟩ := hx
  rw [h y hy] at hxy
  rw [← hxy, cullEntry_zero]

theorem pipeZero_set_period {s s' : GroundTruthStatePipe} {p : ℕ} (h : PipeZero s)
    (hs : s.set_period p = some s') : PipeZero s' := by
  obtain ⟨l⟩ := s
  simp only [GroundTruthStatePipe.set_period] at hs
  split at hs
  · split at hs
    · exact absurd hs (by simp)
    · next x rest heq =>
      obtain rfl := Option.some.inj hs
      have hdrop : ∀ z ∈ (x :: rest), z = 0 := by
        intro z hz
        exact h z (List.drop_subset _ _ (heq.symm ▸ hz))
      intro y hy
      simp only [List.mem_cons] at hy
      rcases hy with hy | hy
      · have hx : x = 0 := hdrop x (List.mem_cons_self x rest)
        have htake : (l.take (l.length - p)).sum = 0 :=
          List.sum_eq_zero fun z hz => h z (List.take_subset _ _ hz)
        omega
      · exact hdrop y (List.mem_cons_of_mem x hy)
  · split at hs
    · obtain rfl := Option.some.inj hs
      intro y hy
      simp only [List.mem_append, List.mem_replicate] at hy
      rcases hy with hy | hy
      · exact hy.2
      · exact h y hy
    · obtain rfl := Option.some.inj hs
      exact h

theorem update_states_zero {m m' : PlantStateMachine} {v : SpecificParameterVector}
    (hz : MachineZero m) (h : m.update_states v = some m') : MachineZero m' := by
  obtain ⟨h1, h2, h3, h4, h5, h6, h7, h8, h9, h10, h11⟩ := hz
  simp only [PlantStateMachine.update_states, setPipePeriod, Option.bind_eq_some,
    Option.map_eq_some'] at h
  obtain ⟨m1, ⟨n1, -, s1, hs1, rfl⟩, m2, ⟨n2, -, s2, hs2, rfl⟩, m3, ⟨n3, -, s3, hs3, rfl⟩,
    m4, ⟨n4, -, s4, hs4, rfl⟩, m5, ⟨n5, -, s5, hs5, rfl⟩, m6, ⟨n6, -, s6, hs6, rfl⟩,
    m7, ⟨n7, -, s7, hs7, rfl⟩, m8, ⟨n8, -, s8, hs8, rfl⟩, n9, -, s9, hs9, rfl⟩ := h
  exact ⟨pipeZero_set_period h1 hs1, pipeZero_set_period h2 hs2, h3,
    pipeZero_set_period h4 hs3, pipeZero_set_period h5 hs4, h6,
    pipeZero_set_period h7 hs5, pipeZero_set_period h8 hs6,
    pipeZero_set_period h9 hs7, pipeZero_set_period h10 hs8,
    pipeZero_set_period h11 hs9⟩

theorem readSnapshot_zero {m : PlantStateMachine} {sn : StepSnapshot} (hz : MachineZero m)
    (h : m.readSnapshot = some sn) : sn = ⟨0, 0, 0, 0, 0, 0, 0, 0⟩ := by
  obtain ⟨h1, h2, -, h4, h5, -, h7, h8, h9, h10, -⟩ := hz
  simp only [PlantStateMachine.readSnapshot, Option.bind_eq_some, Option.map_eq_some'] at h
  obtain ⟨a1, ha1, a2, ha2, a3, ha3, a4, ha4, a5, ha5, a6, ha6, a7, ha7, a8, ha8, heq⟩ := h
  subst heq
  rw [pipeZero_loss h1 _ ha1, pipeZero_loss h2 _ ha2, pipeZero_loss h4 _ ha3,
    pipeZero_loss h5 _ ha4, pipeZero_loss h7 _ ha5, pipeZero_loss h9 _ ha6,
    pipeZero_loss h8 _ ha7, pipeZero_loss h10 _ ha8]

theorem applyStep_zero {m : PlantStateMachine} {v : SpecificParameterVector} {obs : StepObs}
    (hz : MachineZero m) (h : m.applyStep v ⟨0, 0, 0, 0, 0, 0, 0, 0⟩ = some obs) :
    MachineZero obs.machine ∧ obs.admitted_seeds = 0 ∧ obs.snag_removed = 0 := by
  obtain ⟨h1, h2, h3, h4, h5, h6, h7, h8, h9, h10, h11⟩ := hz
  have htot : totalSeedsDispersed m v = 0 := by
    rw [totalSeedsDispersed, pipeZero_pop h9]
    simp [rustCastU32_zero]
  simp only [PlantStateMachine.applyStep, htot, h3, h6, cullEntry_zero, Nat.cast_zero,
    mul_zero, rustCastU32_zero, zero_add, add_zero, ite_self, Option.map_eq_some'] at h
  obtain ⟨ff, hff, heq⟩ := h
  rw [show u32sub 0 0 = some 0 from rfl] at hff
  obtain rfl := (Option.some.inj hff).symm
  subst heq
  simp only [MachineZero]
  refine ⟨⟨pipeZero_step0 h1, ?_, trivial, pipeZero_step0 h4, pipeZero_step0 h5, trivial,
    ?_, pipeZero_step0 (pipeZero_cull h8 _), pipeZero_step0 (pipeZero_cull h9 _),
    pipeZero_step0 (pipeZero_cull h10 _), pipeZero_step0 h11⟩, trivial, pipeZero_headD h11⟩
  · split
    · exact h2
    · exact pipeZero_step0 h2
  · split
    · exact pipeZero_cull h7 _
    · exact pipeZero_step0 (pipeZero_cull h7 _)

theorem stepTrace_zero {m : PlantStateMachine} {v : SpecificParameterVector} {obs : StepObs}
    (hz : MachineZero m) (h : m.stepTrace v = some obs) :
    MachineZero obs.machine ∧ obs.admitted_seeds = 0 ∧ obs.snag_removed = 0 := by
  simp only [PlantStateMachine.stepTrace, Option.bind_eq_some] at h
  obtain ⟨m1, hm1, sn, hsn, happ⟩ := h
  have hz1 := update_states_zero hz hm1
  obtain rfl := readSnapshot_zero hz1 hsn
  exact applyStep_zero hz1 happ

theorem runTrace_zero :
    ∀ (vs : List SpecificParameterVector) {m0 m : PlantStateMachine} {adm rem : ℕ},
      MachineZero m0 → runTrace m0 vs = some (m, adm, rem) →
      MachineZero m ∧ adm = 0 ∧ rem = 0 := by
  intro vs
  induction vs with
  | nil =>
    intro m0 m adm rem hz h
    simp only [runTrace, Option.some.injEq, Prod.mk.injEq] at h
    obtain ⟨rfl, rfl, rfl⟩ := h
    exact ⟨hz, rfl, rfl⟩
  | cons v vs ih =>
    intro m0 m adm rem hz h
    simp only [runTrace, Option.bind_eq_some, Option.some.injEq, Prod.mk.injEq] at h
    obtain ⟨obs, hobs, ⟨mf, a, r⟩, hrun, rfl, rfl, rfl⟩ := h
    obtain ⟨hzo, ha0, hr0⟩ := stepTrace_zero hz hobs
    obtain ⟨hzf, rfl, rfl⟩ := ih hzo hrun
    exact ⟨hzf, by simp [ha0], by simp [hr0]⟩

theorem initMachine_zero : MachineZero initMachine := by
  refine ⟨?_, ?_, rfl, ?_, ?_, rfl, ?_, ?_, ?_, ?_, ?_⟩ <;>
    intro x hx <;> simp [initMachine] at hx

/-- Claim C3 (confirmed): for every sequence of `step` calls from the
all-zero initial machine, the total seeds admitted minus the individuals
removed through snag decomposition equals the current total population
across all stage pipes and both counters.  The machine has no external
insertion path, so every run from the all-zero state stays all-zero and both
sides are 0. -/
theorem c3_conservation :
    ∀ (vs : List SpecificParameterVector) (m : PlantStateMachine) (adm rem : ℕ),
      runTrace initMachine vs = some (m, adm, rem) →
      (adm : ℤ) - (rem : ℤ) = (totalPopulation m : ℤ) := by
  intro vs m adm rem h
  obtain ⟨hzm, rfl, rfl⟩ := runTrace_zero vs initMachine_zero h
  obtain ⟨h1, h2, h3, h4, h5, h6, h7, h8, h9, h10, h11⟩ := hzm
  rw [totalPopulation, pipeZero_pop h1, pipeZero_pop h2, h3, pipeZero_pop h4,
    pipeZero_pop h5, h6, pipeZero_pop h7, pipeZero_pop h8, pipeZero_pop h9,
    pipeZero_pop h10, pipeZero_pop h11]
  norm_num

/-- The constant parameter vector whose every entry is 1.0: every period 1,
favourable germination and flowering conditions. -/
def onePv : SpecificParameterVector := fun _ => 1

/-- The machine after one tick of `onePv` from the initial state: every pipe
holds the single zero-count bucket of its period-1 deque. -/
def zeroedMachine : PlantStateMachine :=
  ⟨⟨[0]⟩, ⟨[0]⟩, 0, ⟨[0]⟩, ⟨[0]⟩, 0, ⟨[0]⟩, ⟨[0]⟩, ⟨[0]⟩, ⟨[0]⟩, ⟨[0]⟩⟩

/-- Claim C3 witness: one step with all parameters 1.0 from the initial
machine admits and removes nothing, and both sides of the invariant are 0. -/
theorem c3_witness : (0 : ℤ) - (0 : ℤ) = (totalPopulation zeroedMachine : ℤ) :=
  c3_conservation [onePv] zeroedMachine 0 0 (by decide)

/-- A machine state with no mature plants but five flowering plants sitting
in the younger slot of a period-2 flowering pipe. -/
def mStar : PlantStateMachine :=
  { initMachine with flowering_plants := ⟨[0, 5]⟩ }

/-- Parameters all 1.0 except a flowering period of 2.0, so `update_states`
keeps both flowering buckets. -/
def pvStar : SpecificParameterVector := fun p =>
  match p with
  | PlantFsmParams.FloweringPeriod => 2
  | _ => 1

/-- Claim C1 (code_bug): with the mature-plant population 0, `step` still
computes the mortality fraction by the division `dead_plants as f32 /
mature_plants.pop() as f32` = 0.0 / 0.0 — the observed fraction is the
non-finite value (`none`), not 0, and the NaN cull wipes the five flowering
plants (their population drops to 0 this tick), whereas the fraction 0
demanded by the claim would have preserved them (a cull by `some 0` keeps
the population at 5). -/
theorem c1_mortality_division_by_zero :
    (PlantStateMachine.stepTrace mStar pvStar).map StepObs.mature_die_percent = some none ∧
    (PlantStateMachine.stepTrace mStar pvStar).map
      (fun o => o.machine.flowering_plants.pop) = some 0 ∧
    (GroundTruthStatePipe.cull_pop ⟨[0, 5]⟩ (some 0)).pop = 5 :=
  ⟨by decide, by decide, by decide⟩

/-- A machine with ten dispersing plants in the younger slot of a period-2
dispersing pipe. -/
def mDisp : PlantStateMachine :=
  { initMachine with dispersing_plants := ⟨[0, 10]⟩ }

/-- Parameters all 1.0 except a dispersal rate of 0.27 and a dispersion
period of 2.0. -/
def pvDisp : SpecificParameterVector := fun p =>
  match p with
  | PlantFsmParams.DispersionRate => 27 / 100
  | PlantFsmParams.DispersionPeriod => 2
  | _ => 1

/-- Claim C6 (corrected), counterexample: with dispersing-plant population
10 and dispersal rate 0.27, the immature-seed pipe is admitted 2 seeds (the
f32 product 2.7 truncated to u32), and 2 is not the exact product 2.7 — so
"admitted exactly the dispersing-plant population times the dispersal-rate
parameter ..." fails; there is also no external seed accumulator in the
machine state that could contribute the claimed external term. -/
theorem c6_truncated_product :
    (PlantStateMachine.update_states mDisp pvDisp).map
      (fun m => m.dispersing_plants.pop) = some 10 ∧
    (PlantStateMachine.stepTrace mDisp pvDisp).map StepObs.admitted_seeds = some 2 ∧
    ((2 : ℚ) ≠ (10 : ℚ) * (27 / 100)) :=
  ⟨by decide, by decide, by norm_num⟩

/-- Claim C6 (corrected, amended): on each tick the immature-seed pipe is
admitted exactly `(dispersing-plant population as f32 * dispersal-rate) as
u32` — the truncated product, read from the post-`update_states`
pre-mutation state — and nothing else; the machine state contains no
external seed accumulator, so no external count is added and none needs
clearing. -/
theorem c6_amended :
    ∀ (m : PlantStateMachine) (v : SpecificParameterVector) (obs : StepObs)
      (m1 : PlantStateMachine),
      m.stepTrace v = some obs → m.update_states v = some m1 →
      obs.admitted_seeds = totalSeedsDispersed m1 v ∧
      obs.machine.immature_seeds = m1.immature_seeds.step (totalSeedsDispersed m1 v) := by
  intro m v obs m1 h hup
  simp only [PlantStateMachine.stepTrace, Option.bind_eq_some] at h
  obtain ⟨m1', hup', sn, hsn, happ⟩ := h
  rw [hup] at hup'
  obtain rfl := Option.some.inj hup'
  simp only [PlantStateMachine.applyStep, Option.map_eq_some'] at happ
  obtain ⟨ff, hff, heq⟩ := happ
  subst heq
  exact ⟨rfl, rfl⟩

/-- Claim C6 witness: from the initial machine with all parameters 1.0, the
admitted gain is the truncated product 0 and the immature-seed pipe is
exactly the stepped pipe. -/
theorem c6_witness :
    (StepObs.mk zeroedMachine 0 0 none).admitted_seeds =
      totalSeedsDispersed zeroedMachine onePv ∧
    (StepObs.mk zeroedMachine 0 0 none).machine.immature_seeds =
      zeroedMachine.immature_seeds.step (totalSeedsDispersed zeroedMachine onePv) :=
  c6_amended initMachine onePv (StepObs.mk zeroedMachine 0 0 none) zeroedMachine
    (by decide) (by decide)

end Treegro
